import Mathlib

/-! # HostTracker (src/host_tracker/host_tracker.h)

A shallow embedding of the per-host record of `host_tracker.h` and of its
public operations.

* `Port`, `Protocol`, `SnortProtocolId` (unsigned 16 bit), `Policy` (unsigned
  8 bit) and `AppId` are values that the class only stores, copies and compares;
  they are embedded as `Nat` / `Int`.  No arithmetic is done on them.
* `PegCount` is an unsigned 64 bit counter; `++` is embedded as `(c + 1) % 2 ^ 64`.
* `std::list` and `std::vector` are embedded as `List`; `push_front` is `::`,
  `push_back` is `· ++ [x]`, an iterator is the position it points at and
  `end()` is the length of the list.
* The thread local `host_tracker_stats` of the calling thread is carried next
  to the record in `World`.
* `std::lock_guard` is taken and released inside every operation; for a single
  caller it has no effect on the result and is not represented.
* `UNKNOWN_PROTOCOL_ID` and `APP_ID_NONE` are declared in headers that are not
  part of this file; the operations that use them take them as an argument.
-/

namespace HostTrackerModel

/-! ## Data model -/

/-- Unsigned 64 bit counter modulus of `PegCount`. -/
def PEG_MOD : Nat := 2 ^ 64

/-- The three thread local counters, `struct HostTrackerStats`. -/
structure HostTrackerStats where
  service_adds : Nat
  service_finds : Nat
  service_removes : Nat
deriving DecidableEq, Repr

/-- The entry type of the services list, `struct HostApplicationEntry`. -/
structure HostApplicationEntry where
  port : Nat
  ipproto : Nat
  snort_protocol_id : Nat
deriving DecidableEq, Repr

/-- The three argument constructor
`HostApplicationEntry(ipproto_param, port_param, protocol_param)`. -/
def HostApplicationEntry.ctor (ipproto_param port_param protocol_param : Nat) :
    HostApplicationEntry :=
  { port := port_param, ipproto := ipproto_param, snort_protocol_id := protocol_param }

/-- The member `operator==`: `ipproto == rhs.ipproto and port == rhs.port`. -/
def HostApplicationEntry.op_eq (lhs rhs : HostApplicationEntry) : Bool :=
  lhs.ipproto == rhs.ipproto && lhs.port == rhs.port

/-- The element type of the application mappings, `struct AppMapping`. -/
structure AppMapping where
  port : Nat
  proto : Nat
  appid : Int
deriving DecidableEq, Repr

/-- Modelled from the spec: `snort::SfIp` is declared in `sfip/sf_ip.h`, which is
not part of the source; the spec calls it an opaque fixed-size address value with
copy and compare semantics only.  It is embedded as the sequence of its bytes. -/
structure SfIp where
  bytes : List Nat
deriving DecidableEq, Repr

/-- Modelled from the spec: the address left by `memset(&ip_addr, 0, sizeof(ip_addr))`,
every byte zero.  The byte count `n` is `sizeof(snort::SfIp)`, which the source does
not give. -/
def SfIp.zeroed (n : Nat) : SfIp := { bytes := List.replicate n 0 }

/-- The data members of `class HostTracker` (the mutex apart). -/
structure HostTracker where
  ip_addr : SfIp
  app_mappings : List AppMapping
  stream_policy : Nat
  frag_policy : Nat
  services : List HostApplicationEntry
  clients : List HostApplicationEntry
deriving DecidableEq, Repr

/-- A record together with the calling thread's `host_tracker_stats`. -/
structure World where
  ht : HostTracker
  host_tracker_stats : HostTrackerStats
deriving DecidableEq, Repr

/-! ## Library pieces used by the operations -/

/-- The call `std::find(first, last, value)` on a list: the position of the first
element `x` with `x == value` (the element's `operator==`), or the length of the
list (`end()`) when there is none. -/
def std_find : List HostApplicationEntry → HostApplicationEntry → Nat
  | [], _ => 0
  | x :: rest, value => if x.op_eq value then 0 else std_find rest value + 1

/-- The call `std::list::erase(iter)` for a position inside the list. -/
def list_erase (l : List HostApplicationEntry) (iter : Nat) : List HostApplicationEntry :=
  l.eraseIdx iter

/-- The postfix `++` on a `PegCount`. -/
def peg_incr (c : Nat) : Nat := (c + 1) % PEG_MOD

/-! ## Constructors -/

/-- The default constructor `HostTracker()`; `sizeof_ip` is `sizeof(ip_addr)`. -/
def HostTracker.ctor (sizeof_ip : Nat) : HostTracker :=
  { ip_addr := SfIp.zeroed sizeof_ip, app_mappings := [], stream_policy := 0,
    frag_policy := 0, services := [], clients := [] }

/-- The constructor `HostTracker(const snort::SfIp& new_ip_addr)`. -/
def HostTracker.ctor_ip (new_ip_addr : SfIp) : HostTracker :=
  { ip_addr := new_ip_addr, app_mappings := [], stream_policy := 0,
    frag_policy := 0, services := [], clients := [] }

/-! ## Operations -/

/-- The method `get_ip_addr`. -/
def get_ip_addr (w : World) : SfIp × World := (w.ht.ip_addr, w)

/-- The method `set_ip_addr`. -/
def set_ip_addr (w : World) (new_ip_addr : SfIp) : World :=
  { w with ht := { w.ht with ip_addr := new_ip_addr } }

/-- The method `get_stream_policy`. -/
def get_stream_policy (w : World) : Nat × World := (w.ht.stream_policy, w)

/-- The method `set_stream_policy`. -/
def set_stream_policy (w : World) (policy : Nat) : World :=
  { w with ht := { w.ht with stream_policy := policy } }

/-- The method `get_frag_policy`. -/
def get_frag_policy (w : World) : Nat × World := (w.ht.frag_policy, w)

/-- The method `set_frag_policy`. -/
def set_frag_policy (w : World) (policy : Nat) : World :=
  { w with ht := { w.ht with frag_policy := policy } }

/-- The method `add_app_mapping`: `push_back` of `{port, proto, appid}`. -/
def add_app_mapping (w : World) (port proto : Nat) (appid : Int) : World :=
  { w with ht := { w.ht with
      app_mappings := w.ht.app_mappings ++ [{ port := port, proto := proto, appid := appid }] } }

/-- The loop of `find_app_mapping` from the iterator position on: the `appid` of the
first element with the given port and proto, `APP_ID_NONE` after the loop. -/
def find_app_mapping_loop (APP_ID_NONE : Int) : List AppMapping → Nat → Nat → Int
  | [], _, _ => APP_ID_NONE
  | it :: rest, port, proto =>
    if it.port == port && it.proto == proto then it.appid
    else find_app_mapping_loop APP_ID_NONE rest port proto

/-- The method `find_app_mapping`. -/
def find_app_mapping (APP_ID_NONE : Int) (w : World) (port proto : Nat) : Int × World :=
  (find_app_mapping_loop APP_ID_NONE w.ht.app_mappings port proto, w)

/-- The loop of `find_else_add_app_mapping`: `true` when the loop leaves through
`return false`, that is when some element has the given port and proto. -/
def find_else_add_loop : List AppMapping → Nat → Nat → Bool
  | [], _, _ => false
  | it :: rest, port, proto =>
    if it.port == port && it.proto == proto then true
    else find_else_add_loop rest port proto

/-- The method `find_else_add_app_mapping`. -/
def find_else_add_app_mapping (w : World) (port proto : Nat) (appid : Int) : Bool × World :=
  if find_else_add_loop w.ht.app_mappings port proto then (false, w)
  else
    (true, { w with ht := { w.ht with
      app_mappings := w.ht.app_mappings ++ [{ port := port, proto := proto, appid := appid }] } })

/-- The method `add_service`. -/
def add_service (w : World) (app_entry : HostApplicationEntry) : Bool × World :=
  let stats := { w.host_tracker_stats with
    service_adds := peg_incr w.host_tracker_stats.service_adds }
  let iter := std_find w.ht.services app_entry
  if iter != w.ht.services.length then (false, { ht := w.ht, host_tracker_stats := stats })
  else (true, { ht := { w.ht with services := app_entry :: w.ht.services },
                host_tracker_stats := stats })

/-- The method `add_or_replace_service`. -/
def add_or_replace_service (w : World) (app_entry : HostApplicationEntry) : World :=
  let stats := { w.host_tracker_stats with
    service_adds := peg_incr w.host_tracker_stats.service_adds }
  let iter := std_find w.ht.services app_entry
  let services := if iter != w.ht.services.length then list_erase w.ht.services iter
                  else w.ht.services
  { ht := { w.ht with services := app_entry :: services }, host_tracker_stats := stats }

/-- The method `find_service`; the reference parameter `app_entry` is passed in and
its value after the call is the second component of the result.  The test
`iter != services.end()` is written `iter < length`, which keeps the bound that the
dereference `*iter` needs: a position returned by `std_find` is never beyond the
length (`std_find_le`). -/
def find_service (UNKNOWN_PROTOCOL_ID : Nat) (w : World) (ipproto port : Nat)
    (app_entry : HostApplicationEntry) : Bool × HostApplicationEntry × World :=
  let tmp_entry := HostApplicationEntry.ctor ipproto port UNKNOWN_PROTOCOL_ID
  let stats := { w.host_tracker_stats with
    service_finds := peg_incr w.host_tracker_stats.service_finds }
  let iter := std_find w.ht.services tmp_entry
  if h : iter < w.ht.services.length then
    (true, w.ht.services.get ⟨iter, h⟩, { ht := w.ht, host_tracker_stats := stats })
  else (false, app_entry, { ht := w.ht, host_tracker_stats := stats })

/-- The method `remove_service`. -/
def remove_service (UNKNOWN_PROTOCOL_ID : Nat) (w : World) (ipproto port : Nat) :
    Bool × World :=
  let tmp_entry := HostApplicationEntry.ctor ipproto port UNKNOWN_PROTOCOL_ID
  let stats := { w.host_tracker_stats with
    service_removes := peg_incr w.host_tracker_stats.service_removes }
  let iter := std_find w.ht.services tmp_entry
  if iter != w.ht.services.length then
    (true, { ht := { w.ht with services := list_erase w.ht.services iter },
             host_tracker_stats := stats })
  else (false, { ht := w.ht, host_tracker_stats := stats })

/-! ## Reachable records and the notions the properties are stated with -/

/-- The number of entries of a list with the key `(ipproto, port)`. -/
def key_count (l : List HostApplicationEntry) (ipproto port : Nat) : Nat :=
  l.countP (fun x => x.ipproto == ipproto && x.port == port)

/-- The records that a finite sequence of public operations produces from a newly
constructed record.  Every operation may be called by any thread, so the thread
local counters it runs with are arbitrary. -/
inductive Reachable : HostTracker → Prop
  | ctor (sizeof_ip : Nat) : Reachable (HostTracker.ctor sizeof_ip)
  | ctor_ip (new_ip_addr : SfIp) : Reachable (HostTracker.ctor_ip new_ip_addr)
  | get_ip_addr (ht : HostTracker) (st : HostTrackerStats) :
      Reachable ht → Reachable (get_ip_addr ⟨ht, st⟩).2.ht
  | set_ip_addr (ht : HostTracker) (st : HostTrackerStats) (new_ip_addr : SfIp) :
      Reachable ht → Reachable (set_ip_addr ⟨ht, st⟩ new_ip_addr).ht
  | get_stream_policy (ht : HostTracker) (st : HostTrackerStats) :
      Reachable ht → Reachable (get_stream_policy ⟨ht, st⟩).2.ht
  | set_stream_policy (ht : HostTracker) (st : HostTrackerStats) (policy : Nat) :
      Reachable ht → Reachable (set_stream_policy ⟨ht, st⟩ policy).ht
  | get_frag_policy (ht : HostTracker) (st : HostTrackerStats) :
      Reachable ht → Reachable (get_frag_policy ⟨ht, st⟩).2.ht
  | set_frag_policy (ht : HostTracker) (st : HostTrackerStats) (policy : Nat) :
      Reachable ht → Reachable (set_frag_policy ⟨ht, st⟩ policy).ht
  | add_app_mapping (ht : HostTracker) (st : HostTrackerStats) (port proto : Nat)
      (appid : Int) :
      Reachable ht → Reachable (add_app_mapping ⟨ht, st⟩ port proto appid).ht
  | find_app_mapping (ht : HostTracker) (st : HostTrackerStats) (APP_ID_NONE : Int)
      (port proto : Nat) :
      Reachable ht → Reachable (find_app_mapping APP_ID_NONE ⟨ht, st⟩ port proto).2.ht
  | find_else_add_app_mapping (ht : HostTracker) (st : HostTrackerStats)
      (port proto : Nat) (appid : Int) :
      Reachable ht → Reachable (find_else_add_app_mapping ⟨ht, st⟩ port proto appid).2.ht
  | add_service (ht : HostTracker) (st : HostTrackerStats)
      (app_entry : HostApplicationEntry) :
      Reachable ht → Reachable (add_service ⟨ht, st⟩ app_entry).2.ht
  | add_or_replace_service (ht : HostTracker) (st : HostTrackerStats)
      (app_entry : HostApplicationEntry) :
      Reachable ht → Reachable (add_or_replace_service ⟨ht, st⟩ app_entry).ht
  | find_service (ht : HostTracker) (st : HostTrackerStats) (UNKNOWN_PROTOCOL_ID : Nat)
      (ipproto port : Nat) (app_entry : HostApplicationEntry) :
      Reachable ht →
      Reachable (find_service UNKNOWN_PROTOCOL_ID ⟨ht, st⟩ ipproto port app_entry).2.2.ht
  | remove_service (ht : HostTracker) (st : HostTrackerStats) (UNKNOWN_PROTOCOL_ID : Nat)
      (ipproto port : Nat) :
      Reachable ht →
      Reachable (remove_service UNKNOWN_PROTOCOL_ID ⟨ht, st⟩ ipproto port).2.ht

/-- The world in which the scenario of the two `add_service` calls with one key and two
protocol identifiers starts: a new record after `add_service` of `(6, 80, 25)`. -/
def dup_key_world : World :=
  (add_service ⟨HostTracker.ctor 20, ⟨0, 0, 0⟩⟩ (HostApplicationEntry.ctor 6 80 25)).2

/-- A record with two services: a new record after `add_or_replace_service` of
`(6, 80, 25)` and then of `(17, 53, 7)`. -/
def two_services_record : HostTracker :=
  (add_or_replace_service
    ⟨(add_or_replace_service ⟨HostTracker.ctor 20, ⟨0, 0, 0⟩⟩
        (HostApplicationEntry.ctor 6 80 25)).ht, ⟨1, 0, 0⟩⟩
    (HostApplicationEntry.ctor 17 53 7)).ht

/-- The number of application mappings of a list with the key `(port, proto)`. -/
def map_key_count (l : List AppMapping) (port proto : Nat) : Nat :=
  l.countP (fun m => m.port == port && m.proto == proto)

/-- The records that a finite sequence of public operations other than
`add_app_mapping` produces from a newly constructed record: among the operations that
insert into the application mappings only `find_else_add_app_mapping` is used. -/
inductive ReachableNoAppend : HostTracker → Prop
  | ctor (sizeof_ip : Nat) : ReachableNoAppend (HostTracker.ctor sizeof_ip)
  | ctor_ip (new_ip_addr : SfIp) : ReachableNoAppend (HostTracker.ctor_ip new_ip_addr)
  | get_ip_addr (ht : HostTracker) (st : HostTrackerStats) :
      ReachableNoAppend ht → ReachableNoAppend (get_ip_addr ⟨ht, st⟩).2.ht
  | set_ip_addr (ht : HostTracker) (st : HostTrackerStats) (new_ip_addr : SfIp) :
      ReachableNoAppend ht → ReachableNoAppend (set_ip_addr ⟨ht, st⟩ new_ip_addr).ht
  | get_stream_policy (ht : HostTracker) (st : HostTrackerStats) :
      ReachableNoAppend ht → ReachableNoAppend (get_stream_policy ⟨ht, st⟩).2.ht
  | set_stream_policy (ht : HostTracker) (st : HostTrackerStats) (policy : Nat) :
      ReachableNoAppend ht → ReachableNoAppend (set_stream_policy ⟨ht, st⟩ policy).ht
  | get_frag_policy (ht : HostTracker) (st : HostTrackerStats) :
      ReachableNoAppend ht → ReachableNoAppend (get_frag_policy ⟨ht, st⟩).2.ht
  | set_frag_policy (ht : HostTracker) (st : HostTrackerStats) (policy : Nat) :
      ReachableNoAppend ht → ReachableNoAppend (set_frag_policy ⟨ht, st⟩ policy).ht
  | find_app_mapping (ht : HostTracker) (st : HostTrackerStats) (APP_ID_NONE : Int)
      (port proto : Nat) :
      ReachableNoAppend ht →
      ReachableNoAppend (find_app_mapping APP_ID_NONE ⟨ht, st⟩ port proto).2.ht
  | find_else_add_app_mapping (ht : HostTracker) (st : HostTrackerStats)
      (port proto : Nat) (appid : Int) :
      ReachableNoAppend ht →
      ReachableNoAppend (find_else_add_app_mapping ⟨ht, st⟩ port proto appid).2.ht
  | add_service (ht : HostTracker) (st : HostTrackerStats)
      (app_entry : HostApplicationEntry) :
      ReachableNoAppend ht → ReachableNoAppend (add_service ⟨ht, st⟩ app_entry).2.ht
  | add_or_replace_service (ht : HostTracker) (st : HostTrackerStats)
      (app_entry : HostApplicationEntry) :
      ReachableNoAppend ht → ReachableNoAppend (add_or_replace_service ⟨ht, st⟩ app_entry).ht
  | find_service (ht : HostTracker) (st : HostTrackerStats) (UNKNOWN_PROTOCOL_ID : Nat)
      (ipproto port : Nat) (app_entry : HostApplicationEntry) :
      ReachableNoAppend ht →
      ReachableNoAppend
        (find_service UNKNOWN_PROTOCOL_ID ⟨ht, st⟩ ipproto port app_entry).2.2.ht
  | remove_service (ht : HostTracker) (st : HostTrackerStats) (UNKNOWN_PROTOCOL_ID : Nat)
      (ipproto port : Nat) :
      ReachableNoAppend ht →
      ReachableNoAppend (remove_service UNKNOWN_PROTOCOL_ID ⟨ht, st⟩ ipproto port).2.ht

/-- A record with a duplicated mapping key: a new record after
`find_else_add_app_mapping(80, 6, 676)` and then `add_app_mapping(80, 6, 1122)`. -/
def dup_mapping_record : HostTracker :=
  (add_app_mapping
    ⟨(find_else_add_app_mapping ⟨HostTracker.ctor 20, ⟨0, 0, 0⟩⟩ 80 6 676).2.ht, ⟨0, 0, 0⟩⟩
    80 6 1122).ht

/-! ## Lemmas on `std_find`, `list_erase` and `key_count` -/

theorem two_services_reachable : Reachable two_services_record :=
  Reachable.add_or_replace_service _ _ _
    (Reachable.add_or_replace_service _ _ _ (Reachable.ctor 20))

theorem op_eq_iff (a b : HostApplicationEntry) :
    a.op_eq b = true ↔ a.ipproto = b.ipproto ∧ a.port = b.port := by
  simp [HostApplicationEntry.op_eq]

theorem std_find_le (l : List HostApplicationEntry) (v : HostApplicationEntry) :
    std_find l v ≤ l.length := by
  induction l with
  | nil => simp [std_find]
  | cons x rest ih =>
    simp only [std_find]
    split <;> simp [ih]

theorem std_find_eq_length_iff (l : List HostApplicationEntry) (v : HostApplicationEntry) :
    std_find l v = l.length ↔ ∀ x ∈ l, x.op_eq v = false := by
  induction l with
  | nil => simp [std_find]
  | cons x rest ih =>
    simp only [std_find]
    by_cases hx : x.op_eq v = true
    · simp [hx]
    · simp [hx, ih]

theorem std_find_get (l : List HostApplicationEntry) (v : HostApplicationEntry)
    (h : std_find l v < l.length) : (l.get ⟨std_find l v, h⟩).op_eq v = true := by
  induction l with
  | nil => simp at h
  | cons x rest ih =>
    by_cases hx : x.op_eq v = true
    · simp [std_find, hx]
    · have h2 : std_find rest v < rest.length := by
        simp [std_find, hx] at h; exact h
      simp [std_find, hx]
      exact ih h2

theorem std_find_get_eq_find (l : List HostApplicationEntry) (v : HostApplicationEntry)
    (h : std_find l v < l.length) :
    l.find? (fun x => x.op_eq v) = some (l.get ⟨std_find l v, h⟩) := by
  induction l with
  | nil => simp at h
  | cons x rest ih =>
    by_cases hx : x.op_eq v = true
    · simp [std_find, hx]
    · have h2 : std_find rest v < rest.length := by
        simp [std_find, hx] at h; exact h
      simp [std_find, hx]
      exact ih h2

theorem key_count_cons (x : HostApplicationEntry) (l : List HostApplicationEntry)
    (ipproto port : Nat) :
    key_count (x :: l) ipproto port =
      key_count l ipproto port + (if x.ipproto = ipproto ∧ x.port = port then 1 else 0) := by
  simp [key_count, List.countP_cons]

theorem key_count_eq_zero_iff (l : List HostApplicationEntry) (ipproto port : Nat) :
    key_count l ipproto port = 0 ↔ ∀ x ∈ l, ¬ (x.ipproto = ipproto ∧ x.port = port) := by
  simp [key_count, List.countP_eq_zero]

theorem std_find_eq_length_iff_key (l : List HostApplicationEntry)
    (v : HostApplicationEntry) :
    std_find l v = l.length ↔ ∀ x ∈ l, ¬ (x.ipproto = v.ipproto ∧ x.port = v.port) := by
  rw [std_find_eq_length_iff]
  constructor
  · intro h x hx hk
    have := h x hx
    rw [← Bool.not_eq_true, op_eq_iff] at this
    exact this hk
  · intro h x hx
    rw [← Bool.not_eq_true, op_eq_iff]
    exact h x hx

theorem key_count_erase_le (l : List HostApplicationEntry) (i : Nat) (ipproto port : Nat) :
    key_count (list_erase l i) ipproto port ≤ key_count l ipproto port := by
  unfold key_count list_erase
  exact List.Sublist.countP_le _ (List.eraseIdx_sublist l i)

theorem key_count_erase_find (l : List HostApplicationEntry) (v : HostApplicationEntry)
    (h : std_find l v ≠ l.length) :
    key_count (list_erase l (std_find l v)) v.ipproto v.port + 1 =
      key_count l v.ipproto v.port := by
  induction l with
  | nil => simp [std_find] at h
  | cons x rest ih =>
    by_cases hx : x.op_eq v = true
    · have hk := (op_eq_iff x v).1 hx
      simp [std_find, hx, list_erase, key_count_cons, hk]
    · have hk : ¬ (x.ipproto = v.ipproto ∧ x.port = v.port) := fun hk =>
        hx ((op_eq_iff x v).2 hk)
      have h2 : std_find rest v ≠ rest.length := by
        simpa [std_find, hx] using h
      have := ih h2
      simp only [list_erase] at this
      simp [std_find, hx, list_erase, key_count_cons, hk, this]

/-- Both services operations that insert keep at most one entry per key, and erasing
never raises a count. -/
theorem keys_unique_add_or_replace (l : List HostApplicationEntry)
    (e : HostApplicationEntry) (hl : ∀ ipproto port, key_count l ipproto port ≤ 1)
    (ipproto port : Nat) :
    key_count (e :: (if std_find l e != l.length then list_erase l (std_find l e) else l))
      ipproto port ≤ 1 := by
  rw [key_count_cons]
  by_cases hk : e.ipproto = ipproto ∧ e.port = port
  · obtain ⟨h1, h2⟩ := hk
    subst h1; subst h2
    by_cases hf : std_find l e = l.length
    · have h0 := (key_count_eq_zero_iff l e.ipproto e.port).2
        ((std_find_eq_length_iff_key l e).1 hf)
      simp [hf, h0]
    · have h1 := key_count_erase_find l e hf
      have h2 := hl e.ipproto e.port
      simp only [bne_iff_ne, ne_eq, hf, not_false_eq_true, if_true, and_self]
      omega
  · simp only [hk, if_false, Nat.add_zero]
    split
    · exact le_trans (key_count_erase_le l _ ipproto port) (hl ipproto port)
    · exact hl ipproto port

theorem keys_unique_reachable (ht : HostTracker) (h : Reachable ht) :
    ∀ ipproto port, key_count ht.services ipproto port ≤ 1 := by
  induction h with
  | ctor n => intro i p; simp [HostTracker.ctor, key_count]
  | ctor_ip ip => intro i p; simp [HostTracker.ctor_ip, key_count]
  | get_ip_addr ht st _ ih => exact ih
  | set_ip_addr ht st ip _ ih => exact ih
  | get_stream_policy ht st _ ih => exact ih
  | set_stream_policy ht st c _ ih => exact ih
  | get_frag_policy ht st _ ih => exact ih
  | set_frag_policy ht st c _ ih => exact ih
  | add_app_mapping ht st port proto appid _ ih => exact ih
  | find_app_mapping ht st A port proto _ ih => exact ih
  | find_else_add_app_mapping ht st port proto appid _ ih =>
    intro i p
    simp only [find_else_add_app_mapping]
    split
    · exact ih i p
    · exact ih i p
  | add_service ht st e _ ih =>
    intro i p
    simp only [add_service]
    split
    · exact ih i p
    · rename_i hf
      have hf2 : std_find ht.services e = ht.services.length := by simpa using hf
      have := keys_unique_add_or_replace ht.services e ih i p
      simpa [hf2] using this
  | add_or_replace_service ht st e _ ih =>
    intro i p
    exact keys_unique_add_or_replace ht.services e ih i p
  | find_service ht st U ipproto port out _ ih =>
    intro i p
    simp only [find_service]
    split
    · exact ih i p
    · exact ih i p
  | remove_service ht st U ipproto port _ ih =>
    intro i p
    simp only [remove_service]
    split
    · exact le_trans (key_count_erase_le ht.services _ i p) (ih i p)
    · exact ih i p

theorem std_find_congr (l : List HostApplicationEntry) (v v' : HostApplicationEntry)
    (hi : v.ipproto = v'.ipproto) (hp : v.port = v'.port) :
    std_find l v = std_find l v' := by
  induction l with
  | nil => rfl
  | cons x rest ih => simp [std_find, HostApplicationEntry.op_eq, hi, hp, ih]

/-- The position `std_find` returns splits the list: a prefix without a match, the
first match, and the rest; `*iter` is that match and `erase(iter)` drops exactly it. -/
theorem std_find_split (l : List HostApplicationEntry) (v : HostApplicationEntry)
    (h : std_find l v ≠ l.length) :
    ∃ pre m post, l = pre ++ m :: post ∧
      (∀ x ∈ pre, ¬ (x.ipproto = v.ipproto ∧ x.port = v.port)) ∧
      m.ipproto = v.ipproto ∧ m.port = v.port ∧
      l.find? (fun x => x.op_eq v) = some m ∧
      list_erase l (std_find l v) = pre ++ post := by
  induction l with
  | nil => simp [std_find] at h
  | cons x rest ih =>
    by_cases hx : x.op_eq v = true
    · have hk := (op_eq_iff x v).1 hx
      exact ⟨[], x, rest, rfl, by simp, hk.1, hk.2, by simp [hx],
        by simp [std_find, hx, list_erase]⟩
    · have hk : ¬ (x.ipproto = v.ipproto ∧ x.port = v.port) := fun hk =>
        hx ((op_eq_iff x v).2 hk)
      have h2 : std_find rest v ≠ rest.length := by
        simpa [std_find, hx] using h
      obtain ⟨pre, m, post, hl, hpre, hmi, hmp, hfind, herase⟩ := ih h2
      refine ⟨x :: pre, m, post, by simp [hl], ?_, hmi, hmp, by simp [hx, hfind], ?_⟩
      · intro y hy
        rcases List.mem_cons.1 hy with rfl | hy
        · exact hk
        · exact hpre y hy
      · simp only [list_erase] at herase
        simp [std_find, hx, list_erase, herase]

theorem add_or_replace_services (w : World) (e : HostApplicationEntry) :
    (add_or_replace_service w e).ht.services =
      e :: (if std_find w.ht.services e != w.ht.services.length
        then list_erase w.ht.services (std_find w.ht.services e) else w.ht.services) := by
  rfl

/-! ## Lemmas on `find_service` and `remove_service` -/

theorem find_service_world (U : Nat) (w : World) (ipproto port : Nat)
    (out : HostApplicationEntry) :
    (find_service U w ipproto port out).2.2.ht = w.ht := by
  simp only [find_service]
  split <;> rfl

theorem find_service_true_iff (U : Nat) (w : World) (ipproto port : Nat)
    (out : HostApplicationEntry) :
    (find_service U w ipproto port out).1 = true ↔
      std_find w.ht.services (HostApplicationEntry.ctor ipproto port U) ≠
        w.ht.services.length := by
  have hle := std_find_le w.ht.services (HostApplicationEntry.ctor ipproto port U)
  simp only [find_service]
  split
  · simp; omega
  · simp; omega

theorem find_service_false_iff (U : Nat) (w : World) (ipproto port : Nat)
    (out : HostApplicationEntry) :
    (find_service U w ipproto port out).1 = false ↔
      ∀ x ∈ w.ht.services, ¬ (x.ipproto = ipproto ∧ x.port = port) := by
  rw [← Bool.not_eq_true, find_service_true_iff, not_not, std_find_eq_length_iff_key]
  rfl

theorem find_service_entry (U : Nat) (w : World) (ipproto port : Nat)
    (out : HostApplicationEntry)
    (h : std_find w.ht.services (HostApplicationEntry.ctor ipproto port U) ≠
      w.ht.services.length) :
    w.ht.services.find? (fun x => x.op_eq (HostApplicationEntry.ctor ipproto port U)) =
      some (find_service U w ipproto port out).2.1 := by
  have hle := std_find_le w.ht.services (HostApplicationEntry.ctor ipproto port U)
  have hlt : std_find w.ht.services (HostApplicationEntry.ctor ipproto port U) <
      w.ht.services.length := by omega
  simp only [find_service, hlt, dite_true]
  exact std_find_get_eq_find _ _ hlt

theorem find_service_head (U : Nat) (w : World) (ipproto port : Nat)
    (out e : HostApplicationEntry) (rest : List HostApplicationEntry)
    (hs : w.ht.services = e :: rest) (hi : e.ipproto = ipproto) (hp : e.port = port) :
    (find_service U w ipproto port out).1 = true ∧
      (find_service U w ipproto port out).2.1 = e := by
  have hop : e.op_eq (HostApplicationEntry.ctor ipproto port U) = true := by
    simp [HostApplicationEntry.op_eq, HostApplicationEntry.ctor, hi, hp]
  have hf : std_find w.ht.services (HostApplicationEntry.ctor ipproto port U) ≠
      w.ht.services.length := by
    rw [hs]; simp [std_find, hop]
  refine ⟨(find_service_true_iff U w ipproto port out).2 hf, ?_⟩
  have := find_service_entry U w ipproto port out hf
  rw [hs] at this
  simp only [List.find?_cons, hop] at this
  exact (Option.some.inj this).symm

theorem remove_service_true_iff (U : Nat) (w : World) (ipproto port : Nat) :
    (remove_service U w ipproto port).1 = true ↔
      ∃ x ∈ w.ht.services, x.ipproto = ipproto ∧ x.port = port := by
  have hk := std_find_eq_length_iff_key w.ht.services
    (HostApplicationEntry.ctor ipproto port U)
  simp only [HostApplicationEntry.ctor] at hk
  simp only [remove_service, HostApplicationEntry.ctor]
  split
  · rename_i hf
    have hf2 := hf
    simp only [bne_iff_ne, ne_eq, not_not] at hf2
    rw [hk] at hf2
    push_neg at hf2
    simpa using hf2
  · rename_i hf
    have hf2 := hf
    simp only [bne_iff_ne, ne_eq, not_not] at hf2
    rw [hk] at hf2
    simp only [Bool.false_eq_true, false_iff, not_exists, not_and]
    intro x hx hi hp
    exact hf2 x hx ⟨hi, hp⟩

theorem add_service_true_iff (w : World) (e : HostApplicationEntry) :
    (add_service w e).1 = true ↔ std_find w.ht.services e = w.ht.services.length := by
  simp only [add_service]
  split
  · rename_i hf
    have hf2 := hf
    simp only [bne_iff_ne, ne_eq, not_not] at hf2
    simp [hf2]
  · rename_i hf
    have hf2 := hf
    simp only [bne_iff_ne, ne_eq, not_not] at hf2
    simp [hf2]

theorem add_service_services (w : World) (e : HostApplicationEntry) :
    (add_service w e).2.ht.services =
      if std_find w.ht.services e = w.ht.services.length then e :: w.ht.services
      else w.ht.services := by
  simp only [add_service]
  split
  · rename_i hf
    have hf2 := hf
    simp only [bne_iff_ne, ne_eq, not_not] at hf2
    simp [hf2]
  · rename_i hf
    have hf2 := hf
    simp only [bne_iff_ne, ne_eq, not_not] at hf2
    simp [hf2]

/-! ## Lemmas on the application mapping loops -/

theorem find_else_add_loop_true_iff (l : List AppMapping) (port proto : Nat) :
    find_else_add_loop l port proto = true ↔
      ∃ m ∈ l, m.port = port ∧ m.proto = proto := by
  induction l with
  | nil => simp [find_else_add_loop]
  | cons x rest ih =>
    by_cases hx : x.port = port ∧ x.proto = proto
    · simp [find_else_add_loop, hx]
    · have hx' : ¬ (x.port = port ∧ x.proto = proto) := hx
      rw [not_and] at hx
      simp [find_else_add_loop, hx, ih]

theorem find_app_mapping_loop_miss (A : Int) (x : AppMapping) (rest : List AppMapping)
    (port proto : Nat) (hx : ¬ (x.port = port ∧ x.proto = proto)) :
    find_app_mapping_loop A (x :: rest) port proto =
      find_app_mapping_loop A rest port proto := by
  simp only [find_app_mapping_loop]
  rw [if_neg]
  simpa using hx

theorem find_else_add_of_present (v : World) (port proto : Nat) (appid : Int)
    (h : find_else_add_loop v.ht.app_mappings port proto = true) :
    find_else_add_app_mapping v port proto appid = (false, v) := by
  simp only [find_else_add_app_mapping, h, if_true]

theorem find_app_mapping_loop_append (A : Int) (l l2 : List AppMapping) (port proto : Nat)
    (habs : ∀ m ∈ l, ¬ (m.port = port ∧ m.proto = proto)) :
    find_app_mapping_loop A (l ++ l2) port proto = find_app_mapping_loop A l2 port proto := by
  induction l with
  | nil => rfl
  | cons x rest ih =>
    have hx : ¬ (x.port = port ∧ x.proto = proto) := habs x (List.mem_cons_self _ _)
    have := ih (fun m hm => habs m (List.mem_cons_of_mem _ hm))
    rw [List.cons_append, find_app_mapping_loop_miss A x _ port proto hx, this]

theorem find_else_add_true_mappings (w : World) (port proto : Nat) (appid : Int)
    (h : (find_else_add_app_mapping w port proto appid).1 = true) :
    (∀ m ∈ w.ht.app_mappings, ¬ (m.port = port ∧ m.proto = proto)) ∧
    (find_else_add_app_mapping w port proto appid).2.ht.app_mappings =
      w.ht.app_mappings ++ [{ port := port, proto := proto, appid := appid }] := by
  by_cases hl : find_else_add_loop w.ht.app_mappings port proto = true
  · simp [find_else_add_app_mapping, hl] at h
  · refine ⟨?_, by simp [find_else_add_app_mapping, hl]⟩
    intro m hm hk
    exact hl ((find_else_add_loop_true_iff _ _ _).2 ⟨m, hm, hk⟩)

theorem find_else_add_false_iff (w : World) (port proto : Nat) (appid : Int) :
    (find_else_add_app_mapping w port proto appid).1 = false ↔
      ∃ m ∈ w.ht.app_mappings, m.port = port ∧ m.proto = proto := by
  rw [← find_else_add_loop_true_iff]
  by_cases hl : find_else_add_loop w.ht.app_mappings port proto = true
  · simp [find_else_add_app_mapping, hl]
  · simp [find_else_add_app_mapping, hl]

theorem find_app_mapping_loop_append_present (A : Int) (l l2 : List AppMapping)
    (port proto : Nat) (hpres : ∃ m ∈ l, m.port = port ∧ m.proto = proto) :
    find_app_mapping_loop A (l ++ l2) port proto = find_app_mapping_loop A l port proto := by
  induction l with
  | nil => simp at hpres
  | cons x rest ih =>
    by_cases hx : x.port = port ∧ x.proto = proto
    · simp [find_app_mapping_loop, hx]
    · rw [List.cons_append, find_app_mapping_loop_miss A x _ port proto hx,
        find_app_mapping_loop_miss A x _ port proto hx]
      apply ih
      obtain ⟨m, hm, hk⟩ := hpres
      rcases List.mem_cons.1 hm with rfl | hm
      · exact absurd hk hx
      · exact ⟨m, hm, hk⟩

theorem map_key_count_push_back (l : List AppMapping) (m : AppMapping) (port proto : Nat) :
    map_key_count (l ++ [m]) port proto =
      map_key_count l port proto + (if m.port = port ∧ m.proto = proto then 1 else 0) := by
  simp [map_key_count, List.countP_append, List.countP_cons]

theorem map_key_count_eq_zero_iff (l : List AppMapping) (port proto : Nat) :
    map_key_count l port proto = 0 ↔ ∀ m ∈ l, ¬ (m.port = port ∧ m.proto = proto) := by
  simp [map_key_count, List.countP_eq_zero]

/-- The check-and-insert keeps at most one mapping per key. -/
theorem map_keys_unique_find_else_add (w : World) (port proto : Nat) (appid : Int)
    (hu : ∀ p q, map_key_count w.ht.app_mappings p q ≤ 1) (p q : Nat) :
    map_key_count (find_else_add_app_mapping w port proto appid).2.ht.app_mappings p q ≤ 1 := by
  by_cases hl : find_else_add_loop w.ht.app_mappings port proto = true
  · rw [find_else_add_of_present w port proto appid hl]
    exact hu p q
  · have habs : ∀ m ∈ w.ht.app_mappings, ¬ (m.port = port ∧ m.proto = proto) := by
      intro m hm hk
      exact hl ((find_else_add_loop_true_iff _ _ _).2 ⟨m, hm, hk⟩)
    have hm : (find_else_add_app_mapping w port proto appid).2.ht.app_mappings =
        w.ht.app_mappings ++ [{ port := port, proto := proto, appid := appid }] := by
      simp [find_else_add_app_mapping, hl]
    rw [hm, map_key_count_push_back]
    by_cases hk : port = p ∧ proto = q
    · obtain ⟨h1, h2⟩ := hk
      subst h1; subst h2
      have h0 := (map_key_count_eq_zero_iff w.ht.app_mappings port proto).2 habs
      simp [h0]
    · have := hu p q
      simp only [hk, if_false, Nat.add_zero]
      exact this

theorem map_keys_unique_no_append (ht : HostTracker) (h : ReachableNoAppend ht) :
    ∀ p q, map_key_count ht.app_mappings p q ≤ 1 := by
  induction h with
  | ctor n => intro p q; simp [HostTracker.ctor, map_key_count]
  | ctor_ip ip => intro p q; simp [HostTracker.ctor_ip, map_key_count]
  | get_ip_addr ht st _ ih => exact ih
  | set_ip_addr ht st ip _ ih => exact ih
  | get_stream_policy ht st _ ih => exact ih
  | set_stream_policy ht st c _ ih => exact ih
  | get_frag_policy ht st _ ih => exact ih
  | set_frag_policy ht st c _ ih => exact ih
  | find_app_mapping ht st A port proto _ ih => exact ih
  | find_else_add_app_mapping ht st port proto appid _ ih =>
    exact map_keys_unique_find_else_add ⟨ht, st⟩ port proto appid ih
  | add_service ht st e _ ih =>
    intro p q
    simp only [add_service]
    split
    · exact ih p q
    · exact ih p q
  | add_or_replace_service ht st e _ ih => exact ih
  | find_service ht st U ipproto port out _ ih =>
    intro p q
    simp only [find_service]
    split
    · exact ih p q
    · exact ih p q
  | remove_service ht st U ipproto port _ ih =>
    intro p q
    simp only [remove_service]
    split
    · exact ih p q
    · exact ih p q

theorem dup_mapping_reachable : Reachable dup_mapping_record :=
  Reachable.add_app_mapping _ _ _ _ _
    (Reachable.find_else_add_app_mapping _ _ _ _ _ (Reachable.ctor 20))

/-! ## Properties of the services operations -/

/-- C1, as stated, fails: on a record that already stores `(6, 80, 25)`,
`add_service` of `(6, 80, 99)` followed by `find_service(6, 80)` reports found but
yields the stored entry with protocol identifier 25, which is not the entry added. -/
theorem C1_counterexample :
    (add_service dup_key_world (HostApplicationEntry.ctor 6 80 99)).1 = false ∧
    (find_service 0 (add_service dup_key_world (HostApplicationEntry.ctor 6 80 99)).2 6 80
      (HostApplicationEntry.ctor 0 0 0)).1 = true ∧
    (find_service 0 (add_service dup_key_world (HostApplicationEntry.ctor 6 80 99)).2 6 80
      (HostApplicationEntry.ctor 0 0 0)).2.1 = HostApplicationEntry.ctor 6 80 25 ∧
    (find_service 0 (add_service dup_key_world (HostApplicationEntry.ctor 6 80 99)).2 6 80
      (HostApplicationEntry.ctor 0 0 0)).2.1 ≠ HostApplicationEntry.ctor 6 80 99 := by
  decide

/-- C1 (amended): for every record state and every entry `e`, `add_service(e)` followed
by `find_service(e.ipproto, e.port)` reports found and yields an entry with the
ipproto and port of `e`; the entry is `e` itself, protocol identifier included, when
`add_service` returned true, and it is the first entry stored before the call that
`operator==` matches with `e` when `add_service` returned false. -/
theorem C1_add_service_then_find_service (U : Nat) (w : World)
    (e out : HostApplicationEntry) :
    (find_service U (add_service w e).2 e.ipproto e.port out).1 = true ∧
    (find_service U (add_service w e).2 e.ipproto e.port out).2.1.ipproto = e.ipproto ∧
    (find_service U (add_service w e).2 e.ipproto e.port out).2.1.port = e.port ∧
    ((add_service w e).1 = true →
      (find_service U (add_service w e).2 e.ipproto e.port out).2.1 = e) ∧
    ((add_service w e).1 = false →
      w.ht.services.find? (fun x => x.op_eq e) =
        some (find_service U (add_service w e).2 e.ipproto e.port out).2.1) := by
  have hsv := add_service_services w e
  by_cases hf : std_find w.ht.services e = w.ht.services.length
  · rw [if_pos hf] at hsv
    obtain ⟨h1, h2⟩ := find_service_head U (add_service w e).2 e.ipproto e.port out e
      w.ht.services hsv rfl rfl
    refine ⟨h1, by rw [h2], by rw [h2], fun _ => h2, fun hfalse => ?_⟩
    have := (add_service_true_iff w e).2 hf
    rw [hfalse] at this
    exact absurd this (by decide)
  · rw [if_neg hf] at hsv
    have hc : std_find w.ht.services (HostApplicationEntry.ctor e.ipproto e.port U) =
        std_find w.ht.services e :=
      std_find_congr _ _ _ rfl rfl
    have hf2 : std_find (add_service w e).2.ht.services
        (HostApplicationEntry.ctor e.ipproto e.port U) ≠
        (add_service w e).2.ht.services.length := by
      rw [hsv, hc]; exact hf
    have hent := find_service_entry U (add_service w e).2 e.ipproto e.port out hf2
    rw [hsv] at hent
    have hfun : (fun x : HostApplicationEntry =>
        x.op_eq (HostApplicationEntry.ctor e.ipproto e.port U)) = (fun x => x.op_eq e) := by
      funext x
      simp [HostApplicationEntry.op_eq, HostApplicationEntry.ctor]
    rw [hfun] at hent
    have hop := List.find?_some hent
    rw [op_eq_iff] at hop
    refine ⟨(find_service_true_iff U _ e.ipproto e.port out).2 hf2, hop.1, hop.2,
      fun htrue => ?_, fun _ => hent⟩
    exact absurd ((add_service_true_iff w e).1 htrue) hf

/-- C2: in every record reachable from a newly constructed record by public
operations, the services list holds at most one entry for each (ipproto, port). -/
theorem C2_services_key_unique (ht : HostTracker) (h : Reachable ht)
    (ipproto port : Nat) : key_count ht.services ipproto port ≤ 1 :=
  keys_unique_reachable ht h ipproto port

/-- C2 at a reachable record holding two services. -/
theorem C2_services_key_unique_witness :
    Reachable two_services_record ∧ key_count two_services_record.services 6 80 ≤ 1 :=
  ⟨two_services_reachable,
   C2_services_key_unique two_services_record two_services_reachable 6 80⟩

/-- C3: on a reachable record, `add_or_replace_service(e1)` followed by
`add_or_replace_service(e2)` with the same key and different protocol identifiers
makes `find_service` for that key report found with the protocol identifier of `e2`,
and the services list then holds exactly one entry with that key. -/
theorem C3_add_or_replace_twice (U : Nat) (ht : HostTracker) (st : HostTrackerStats)
    (e1 e2 out : HostApplicationEntry) (hr : Reachable ht)
    (hi : e1.ipproto = e2.ipproto) (hp : e1.port = e2.port)
    (_hid : e1.snort_protocol_id ≠ e2.snort_protocol_id) :
    (find_service U (add_or_replace_service (add_or_replace_service ⟨ht, st⟩ e1) e2)
      e2.ipproto e2.port out).1 = true ∧
    (find_service U (add_or_replace_service (add_or_replace_service ⟨ht, st⟩ e1) e2)
      e2.ipproto e2.port out).2.1.snort_protocol_id = e2.snort_protocol_id ∧
    key_count (add_or_replace_service (add_or_replace_service ⟨ht, st⟩ e1) e2).ht.services
      e2.ipproto e2.port = 1 := by
  have hu := keys_unique_add_or_replace ht.services e1 (keys_unique_reachable ht hr)
    e2.ipproto e2.port
  rw [key_count_cons] at hu
  simp only [hi, hp, and_self, if_true] at hu
  have hop : e1.op_eq e2 = true := (op_eq_iff e1 e2).2 ⟨hi, hp⟩
  have hs : (add_or_replace_service (add_or_replace_service ⟨ht, st⟩ e1) e2).ht.services =
      e2 :: (if std_find ht.services e1 != ht.services.length
        then list_erase ht.services (std_find ht.services e1) else ht.services) := by
    simp [add_or_replace_service, std_find, hop, list_erase]
  obtain ⟨h1, h2⟩ := find_service_head U
    (add_or_replace_service (add_or_replace_service ⟨ht, st⟩ e1) e2) e2.ipproto e2.port
    out e2 _ hs rfl rfl
  refine ⟨h1, by rw [h2], ?_⟩
  rw [hs, key_count_cons]
  simp only [and_self, if_true]
  omega

/-- C3 on the reachable record with two services, replacing `(6, 80)` twice. -/
theorem C3_add_or_replace_twice_witness :
    Reachable two_services_record ∧
    (find_service 0 (add_or_replace_service (add_or_replace_service
      ⟨two_services_record, ⟨0, 0, 0⟩⟩ (HostApplicationEntry.ctor 6 80 30))
      (HostApplicationEntry.ctor 6 80 31)) 6 80 (HostApplicationEntry.ctor 0 0 0)).1 = true ∧
    (find_service 0 (add_or_replace_service (add_or_replace_service
      ⟨two_services_record, ⟨0, 0, 0⟩⟩ (HostApplicationEntry.ctor 6 80 30))
      (HostApplicationEntry.ctor 6 80 31)) 6 80
      (HostApplicationEntry.ctor 0 0 0)).2.1.snort_protocol_id = 31 ∧
    key_count (add_or_replace_service (add_or_replace_service
      ⟨two_services_record, ⟨0, 0, 0⟩⟩ (HostApplicationEntry.ctor 6 80 30))
      (HostApplicationEntry.ctor 6 80 31)).ht.services 6 80 = 1 :=
  ⟨two_services_reachable,
   C3_add_or_replace_twice 0 two_services_record ⟨0, 0, 0⟩
    (HostApplicationEntry.ctor 6 80 30) (HostApplicationEntry.ctor 6 80 31)
    (HostApplicationEntry.ctor 0 0 0) two_services_reachable rfl rfl (by decide)⟩

/-- C4: on a record holding no service with key (ipproto, port), for two entries with
that key the first `add_service` returns true and the second returns false; the
services list is then exactly one entry longer and the calling thread's `service_adds`
is larger by two modulo 2^64. -/
theorem C4_add_service_twice (w : World) (e e' : HostApplicationEntry)
    (ipproto port : Nat)
    (habs : ∀ x ∈ w.ht.services, ¬ (x.ipproto = ipproto ∧ x.port = port))
    (hi : e.ipproto = ipproto) (hp : e.port = port)
    (hi' : e'.ipproto = ipproto) (hp' : e'.port = port) :
    (add_service w e).1 = true ∧
    (add_service (add_service w e).2 e').1 = false ∧
    (add_service (add_service w e).2 e').2.ht.services.length =
      w.ht.services.length + 1 ∧
    (add_service (add_service w e).2 e').2.host_tracker_stats.service_adds =
      (w.host_tracker_stats.service_adds + 2) % 2 ^ 64 := by
  subst hi; subst hp
  have hf : std_find w.ht.services e = w.ht.services.length :=
    (std_find_eq_length_iff_key w.ht.services e).2 habs
  have hop : e.op_eq e' = true := (op_eq_iff e e').2 ⟨hi'.symm, hp'.symm⟩
  have h1 : (add_service w e).1 = true := (add_service_true_iff w e).2 hf
  have hs1 : (add_service w e).2.ht.services = e :: w.ht.services := by
    rw [add_service_services, if_pos hf]
  have hf2 : std_find (add_service w e).2.ht.services e' ≠
      (add_service w e).2.ht.services.length := by
    rw [hs1]; simp [std_find, hop]
  have h2 : (add_service (add_service w e).2 e').1 = false := by
    rw [← Bool.not_eq_true, add_service_true_iff]; exact hf2
  have hs2 : (add_service (add_service w e).2 e').2.ht.services = e :: w.ht.services := by
    rw [add_service_services, if_neg hf2, hs1]
  refine ⟨h1, h2, by rw [hs2]; rfl, ?_⟩
  have hc : ∀ (v : World) (x : HostApplicationEntry),
      (add_service v x).2.host_tracker_stats.service_adds =
        (v.host_tracker_stats.service_adds + 1) % 2 ^ 64 := by
    intro v x
    simp only [add_service, peg_incr, PEG_MOD]
    split <;> rfl
  rw [hc, hc]
  omega

/-- C4 on a new record whose `service_adds` counter is at its largest value, so that
the two increments wrap around to 1. -/
theorem C4_add_service_twice_witness :
    (add_service ⟨HostTracker.ctor 20, ⟨2 ^ 64 - 1, 0, 0⟩⟩
      (HostApplicationEntry.ctor 6 80 25)).1 = true ∧
    (add_service (add_service ⟨HostTracker.ctor 20, ⟨2 ^ 64 - 1, 0, 0⟩⟩
      (HostApplicationEntry.ctor 6 80 25)).2 (HostApplicationEntry.ctor 6 80 99)).1 = false ∧
    (add_service (add_service ⟨HostTracker.ctor 20, ⟨2 ^ 64 - 1, 0, 0⟩⟩
      (HostApplicationEntry.ctor 6 80 25)).2
      (HostApplicationEntry.ctor 6 80 99)).2.ht.services.length =
      (HostTracker.ctor 20).services.length + 1 ∧
    (add_service (add_service ⟨HostTracker.ctor 20, ⟨2 ^ 64 - 1, 0, 0⟩⟩
      (HostApplicationEntry.ctor 6 80 25)).2
      (HostApplicationEntry.ctor 6 80 99)).2.host_tracker_stats.service_adds =
      (2 ^ 64 - 1 + 2) % 2 ^ 64 :=
  C4_add_service_twice ⟨HostTracker.ctor 20, ⟨2 ^ 64 - 1, 0, 0⟩⟩
    (HostApplicationEntry.ctor 6 80 25) (HostApplicationEntry.ctor 6 80 99) 6 80
    (by simp [HostTracker.ctor]) rfl rfl rfl rfl

/-- C5: on a reachable record that stores a service with key (ipproto, port),
`remove_service(ipproto, port)` returns true and a `find_service` for the same key made
immediately afterwards returns false. -/
theorem C5_remove_then_find (U : Nat) (ht : HostTracker) (st : HostTrackerStats)
    (ipproto port : Nat) (out : HostApplicationEntry) (hr : Reachable ht)
    (hstored : ∃ x ∈ ht.services, x.ipproto = ipproto ∧ x.port = port) :
    (remove_service U ⟨ht, st⟩ ipproto port).1 = true ∧
    (find_service U (remove_service U ⟨ht, st⟩ ipproto port).2 ipproto port out).1 =
      false := by
  have h1 : (remove_service U ⟨ht, st⟩ ipproto port).1 = true :=
    (remove_service_true_iff U ⟨ht, st⟩ ipproto port).2 hstored
  refine ⟨h1, ?_⟩
  have hf : std_find ht.services (HostApplicationEntry.ctor ipproto port U) ≠
      ht.services.length := by
    intro hf
    obtain ⟨x, hx, hk⟩ := hstored
    exact (std_find_eq_length_iff_key ht.services _).1 hf x hx hk
  have hs : (remove_service U ⟨ht, st⟩ ipproto port).2.ht.services =
      list_erase ht.services
        (std_find ht.services (HostApplicationEntry.ctor ipproto port U)) := by
    simp [remove_service, hf]
  have hcount := key_count_erase_find ht.services
    (HostApplicationEntry.ctor ipproto port U) hf
  have hu := keys_unique_reachable ht hr ipproto port
  simp only [HostApplicationEntry.ctor] at hcount hs
  rw [find_service_false_iff, hs, ← key_count_eq_zero_iff]
  omega

/-- C5 on the reachable record with two services, removing `(17, 53)`. -/
theorem C5_remove_then_find_witness :
    Reachable two_services_record ∧
    (∃ x ∈ two_services_record.services, x.ipproto = 17 ∧ x.port = 53) ∧
    (remove_service 0 ⟨two_services_record, ⟨0, 0, 0⟩⟩ 17 53).1 = true ∧
    (find_service 0 (remove_service 0 ⟨two_services_record, ⟨0, 0, 0⟩⟩ 17 53).2 17 53
      (HostApplicationEntry.ctor 0 0 0)).1 = false :=
  ⟨two_services_reachable, by decide,
   C5_remove_then_find 0 two_services_record ⟨0, 0, 0⟩ 17 53
    (HostApplicationEntry.ctor 0 0 0) two_services_reachable (by decide)⟩

/-- C6: when no service with key (ipproto, port) is stored, `remove_service` returns
false and leaves the services list and every other data field of the record as it
was. -/
theorem C6_remove_absent (U : Nat) (w : World) (ipproto port : Nat)
    (habs : ∀ x ∈ w.ht.services, ¬ (x.ipproto = ipproto ∧ x.port = port)) :
    (remove_service U w ipproto port).1 = false ∧
    (remove_service U w ipproto port).2.ht = w.ht := by
  have hf : std_find w.ht.services (HostApplicationEntry.ctor ipproto port U) =
      w.ht.services.length :=
    (std_find_eq_length_iff_key w.ht.services _).2 habs
  simp [remove_service, hf]

/-- C6 on the record with services `(17, 53)` and `(6, 80)`, removing `(6, 53)`. -/
theorem C6_remove_absent_witness :
    (remove_service 0 ⟨two_services_record, ⟨0, 0, 0⟩⟩ 6 53).1 = false ∧
    (remove_service 0 ⟨two_services_record, ⟨0, 0, 0⟩⟩ 6 53).2.ht = two_services_record :=
  C6_remove_absent 0 ⟨two_services_record, ⟨0, 0, 0⟩⟩ 6 53 (by decide)

/-- C7: on a newly default-constructed record, `add_service(6, 80, 25)` returns true;
`find_service(6, 80)` returns true with protocol identifier 25; `add_service(6, 80, 99)`
returns false and the stored entry still has protocol identifier 25;
`remove_service(6, 80)` returns true; `find_service(6, 80)` returns false. -/
theorem C7_scenario (sizeof_ip U : Nat) (st : HostTrackerStats)
    (out : HostApplicationEntry) :
    let w0 : World := ⟨HostTracker.ctor sizeof_ip, st⟩
    let a1 := add_service w0 (HostApplicationEntry.ctor 6 80 25)
    let f1 := find_service U a1.2 6 80 out
    let a2 := add_service f1.2.2 (HostApplicationEntry.ctor 6 80 99)
    let r := remove_service U a2.2 6 80
    let f2 := find_service U r.2 6 80 f1.2.1
    a1.1 = true ∧
    f1.1 = true ∧ f1.2.1.snort_protocol_id = 25 ∧
    a2.1 = false ∧ a2.2.ht.services = [HostApplicationEntry.ctor 6 80 25] ∧
    r.1 = true ∧
    f2.1 = false := by
  simp [HostTracker.ctor, add_service, find_service, remove_service, std_find,
    HostApplicationEntry.op_eq, HostApplicationEntry.ctor, list_erase]

/-! ## Properties of the application mapping operations -/

/-- C8: on a record with no application mappings `find_app_mapping` returns
`APP_ID_NONE` for every (port, proto); and whenever
`find_else_add_app_mapping(p, proto, id)` returns true, a following call with the same
key and a different id returns false and `find_app_mapping(p, proto)` then still
returns `id`. -/
theorem C8_find_else_add_keeps_first (APP_ID_NONE : Int) (w0 w : World)
    (port0 proto0 p proto : Nat) (id id' : Int)
    (hempty : w0.ht.app_mappings = [])
    (hfirst : (find_else_add_app_mapping w p proto id).1 = true)
    (_hne : id' ≠ id) :
    (find_app_mapping APP_ID_NONE w0 port0 proto0).1 = APP_ID_NONE ∧
    (find_else_add_app_mapping (find_else_add_app_mapping w p proto id).2 p proto id').1 =
      false ∧
    (find_app_mapping APP_ID_NONE
      (find_else_add_app_mapping (find_else_add_app_mapping w p proto id).2 p proto id').2
      p proto).1 = id := by
  obtain ⟨habs, hm⟩ := find_else_add_true_mappings w p proto id hfirst
  have h2 : (find_else_add_app_mapping (find_else_add_app_mapping w p proto id).2
      p proto id').1 = false := by
    rw [find_else_add_false_iff, hm]
    exact ⟨{ port := p, proto := proto, appid := id }, by simp, rfl, rfl⟩
  have hl : find_else_add_loop (find_else_add_app_mapping w p proto id).2.ht.app_mappings
      p proto = true := by
    rw [find_else_add_loop_true_iff, hm]
    exact ⟨{ port := p, proto := proto, appid := id }, by simp, rfl, rfl⟩
  have h3 : (find_else_add_app_mapping (find_else_add_app_mapping w p proto id).2
      p proto id').2 = (find_else_add_app_mapping w p proto id).2 := by
    rw [find_else_add_of_present _ p proto id' hl]
  refine ⟨by simp [find_app_mapping, hempty, find_app_mapping_loop], h2, ?_⟩
  rw [h3]
  simp only [find_app_mapping]
  rw [hm, find_app_mapping_loop_append APP_ID_NONE _ _ p proto habs]
  simp [find_app_mapping_loop]

/-- C8 on a new record: lookup of (80, 6) gives the sentinel, the first
`find_else_add_app_mapping(80, 6, 676)` returns true, the second with id 1122 returns
false and the lookup then gives 676. -/
theorem C8_find_else_add_keeps_first_witness :
    (find_else_add_app_mapping ⟨HostTracker.ctor 20, ⟨0, 0, 0⟩⟩ 80 6 676).1 = true ∧
    (find_app_mapping 0 ⟨HostTracker.ctor 20, ⟨0, 0, 0⟩⟩ 80 6).1 = 0 ∧
    (find_else_add_app_mapping
      (find_else_add_app_mapping ⟨HostTracker.ctor 20, ⟨0, 0, 0⟩⟩ 80 6 676).2 80 6 1122).1 =
      false ∧
    (find_app_mapping 0
      (find_else_add_app_mapping
        (find_else_add_app_mapping ⟨HostTracker.ctor 20, ⟨0, 0, 0⟩⟩ 80 6 676).2 80 6 1122).2
      80 6).1 = 676 :=
  ⟨by decide,
   C8_find_else_add_keeps_first 0 ⟨HostTracker.ctor 20, ⟨0, 0, 0⟩⟩
    ⟨HostTracker.ctor 20, ⟨0, 0, 0⟩⟩ 80 6 80 6 676 1122 rfl (by decide) (by decide)⟩

/-- C9: `find_app_mapping(port, proto)` leaves the world unchanged and returns the
application id of the first mapping, in insertion order, whose port and proto both
equal the arguments; it returns `APP_ID_NONE` when no stored mapping has that key. -/
theorem C9_find_app_mapping_first_match (APP_ID_NONE : Int) (w : World)
    (port proto : Nat) :
    (find_app_mapping APP_ID_NONE w port proto).2 = w ∧
    ((∃ pre m post, w.ht.app_mappings = pre ++ m :: post ∧
        (∀ x ∈ pre, ¬ (x.port = port ∧ x.proto = proto)) ∧
        m.port = port ∧ m.proto = proto ∧
        (find_app_mapping APP_ID_NONE w port proto).1 = m.appid) ∨
     ((∀ x ∈ w.ht.app_mappings, ¬ (x.port = port ∧ x.proto = proto)) ∧
        (find_app_mapping APP_ID_NONE w port proto).1 = APP_ID_NONE)) := by
  refine ⟨rfl, ?_⟩
  simp only [find_app_mapping]
  generalize w.ht.app_mappings = l
  induction l with
  | nil => right; simp [find_app_mapping_loop]
  | cons x rest ih =>
    by_cases hx : x.port = port ∧ x.proto = proto
    · left
      exact ⟨[], x, rest, rfl, by simp, hx.1, hx.2, by simp [find_app_mapping_loop, hx]⟩
    · rw [find_app_mapping_loop_miss APP_ID_NONE x rest port proto hx]
      rcases ih with ⟨pre, m, post, hl, hpre, hmp, hmq, hres⟩ | ⟨hall, hres⟩
      · left
        refine ⟨x :: pre, m, post, by simp [hl], ?_, hmp, hmq, hres⟩
        intro y hy
        rcases List.mem_cons.1 hy with rfl | hy
        · exact hx
        · exact hpre y hy
      · right
        refine ⟨?_, hres⟩
        intro y hy
        rcases List.mem_cons.1 hy with rfl | hy
        · exact hx
        · exact hall y hy

/-- C10: `find_else_add_app_mapping(port, proto, appid)` returns false exactly when
some stored mapping already has key (port, proto), and then nothing changes; otherwise
it returns true and the mapping sequence becomes the old sequence with
`{port, proto, appid}` appended at the end. -/
theorem C10_find_else_add_app_mapping (w : World) (port proto : Nat) (appid : Int) :
    ((find_else_add_app_mapping w port proto appid).1 = false ↔
      ∃ m ∈ w.ht.app_mappings, m.port = port ∧ m.proto = proto) ∧
    ((find_else_add_app_mapping w port proto appid).1 = false →
      (find_else_add_app_mapping w port proto appid).2 = w) ∧
    ((find_else_add_app_mapping w port proto appid).1 = true →
      (find_else_add_app_mapping w port proto appid).2.ht.app_mappings =
        w.ht.app_mappings ++ [{ port := port, proto := proto, appid := appid }]) := by
  refine ⟨find_else_add_false_iff w port proto appid, ?_,
    fun h => (find_else_add_true_mappings w port proto appid h).2⟩
  intro h
  by_cases hl : find_else_add_loop w.ht.app_mappings port proto = true
  · simp [find_else_add_app_mapping, hl]
  · simp [find_else_add_app_mapping, hl] at h

/-- C11: `add_app_mapping(port, proto, appid)` makes the mapping sequence exactly one
element longer by appending `{port, proto, appid}` at the end, whether or not the key
is already present; when a mapping with the key was already stored,
`find_app_mapping(port, proto)` returns the same application id after the call as
before it. -/
theorem C11_add_app_mapping (APP_ID_NONE : Int) (w : World) (port proto : Nat)
    (appid : Int) :
    (add_app_mapping w port proto appid).ht.app_mappings =
      w.ht.app_mappings ++ [{ port := port, proto := proto, appid := appid }] ∧
    (add_app_mapping w port proto appid).ht.app_mappings.length =
      w.ht.app_mappings.length + 1 ∧
    ((∃ m ∈ w.ht.app_mappings, m.port = port ∧ m.proto = proto) →
      (find_app_mapping APP_ID_NONE (add_app_mapping w port proto appid) port proto).1 =
        (find_app_mapping APP_ID_NONE w port proto).1) := by
  refine ⟨rfl, by simp [add_app_mapping], fun hpres => ?_⟩
  simp only [find_app_mapping, add_app_mapping]
  exact find_app_mapping_loop_append_present APP_ID_NONE _ _ port proto hpres

/-- C11 on a record that maps (80, 6) to 676: appending (80, 6, 1122) gives two
mappings and the lookup still returns 676. -/
theorem C11_add_app_mapping_witness :
    (add_app_mapping (find_else_add_app_mapping ⟨HostTracker.ctor 20, ⟨0, 0, 0⟩⟩ 80 6 676).2
      80 6 1122).ht.app_mappings.length = 2 ∧
    (find_app_mapping 0
      (add_app_mapping (find_else_add_app_mapping ⟨HostTracker.ctor 20, ⟨0, 0, 0⟩⟩ 80 6 676).2
        80 6 1122) 80 6).1 = 676 :=
  ⟨(C11_add_app_mapping 0
      (find_else_add_app_mapping ⟨HostTracker.ctor 20, ⟨0, 0, 0⟩⟩ 80 6 676).2 80 6 1122).2.1,
   ((C11_add_app_mapping 0
      (find_else_add_app_mapping ⟨HostTracker.ctor 20, ⟨0, 0, 0⟩⟩ 80 6 676).2 80 6 1122).2.2
      ⟨{ port := 80, proto := 6, appid := 676 }, by decide, rfl, rfl⟩).trans (by decide)⟩

/-! ## Further properties of the services operations -/

/-- C12: `add_service(e)` returns false exactly when the services list already holds
an entry with the ipproto and port of `e`, and then the list is unchanged; otherwise
it returns true and the new services list is `e` followed by the old list. -/
theorem C12_add_service (w : World) (e : HostApplicationEntry) :
    ((add_service w e).1 = false ↔
      ∃ x ∈ w.ht.services, x.ipproto = e.ipproto ∧ x.port = e.port) ∧
    ((add_service w e).1 = false → (add_service w e).2.ht.services = w.ht.services) ∧
    ((add_service w e).1 = true → (add_service w e).2.ht.services = e :: w.ht.services) := by
  have htrue := add_service_true_iff w e
  have hsv := add_service_services w e
  have hkey := std_find_eq_length_iff_key w.ht.services e
  refine ⟨?_, ?_, ?_⟩
  · rw [← Bool.not_eq_true, htrue, hkey]
    push_neg
    rfl
  · intro hfalse
    have hne : ¬ std_find w.ht.services e = w.ht.services.length := by
      rw [← htrue, hfalse]; decide
    rw [hsv, if_neg hne]
  · intro ht
    rw [hsv, if_pos (htrue.1 ht)]

/-- C13: after `add_or_replace_service(e)` the services list is `e` followed by the old
list with its first entry matching the ipproto and port of `e` removed (the whole old
list when none matched), the other entries in their order; and `find_service` for the
key of `e` then reports found and yields `e`. -/
theorem C13_add_or_replace_service (U : Nat) (w : World) (e out : HostApplicationEntry) :
    (((∀ x ∈ w.ht.services, ¬ (x.ipproto = e.ipproto ∧ x.port = e.port)) ∧
        (add_or_replace_service w e).ht.services = e :: w.ht.services) ∨
      (∃ pre m post, w.ht.services = pre ++ m :: post ∧
        (∀ x ∈ pre, ¬ (x.ipproto = e.ipproto ∧ x.port = e.port)) ∧
        m.ipproto = e.ipproto ∧ m.port = e.port ∧
        (add_or_replace_service w e).ht.services = e :: (pre ++ post))) ∧
    (find_service U (add_or_replace_service w e) e.ipproto e.port out).1 = true ∧
    (find_service U (add_or_replace_service w e) e.ipproto e.port out).2.1 = e := by
  have hs := add_or_replace_services w e
  refine ⟨?_, find_service_head U (add_or_replace_service w e) e.ipproto e.port out e _
    hs rfl rfl⟩
  by_cases hf : std_find w.ht.services e = w.ht.services.length
  · left
    refine ⟨(std_find_eq_length_iff_key w.ht.services e).1 hf, ?_⟩
    rw [hs]; simp [hf]
  · right
    obtain ⟨pre, m, post, hl, hpre, hmi, hmp, _, herase⟩ :=
      std_find_split w.ht.services e hf
    refine ⟨pre, m, post, hl, hpre, hmi, hmp, ?_⟩
    rw [hs, ← herase]; simp [hf]

/-- C14: `find_service(ipproto, port, out)` returns true exactly when some stored
service has that ipproto and port, and then `out` is the first such stored entry, with
the stored protocol identifier; when it returns false `out` is as the caller passed it;
in both cases the record is unchanged. -/
theorem C14_find_service (U : Nat) (w : World) (ipproto port : Nat)
    (out : HostApplicationEntry) :
    ((find_service U w ipproto port out).1 = true ↔
      ∃ x ∈ w.ht.services, x.ipproto = ipproto ∧ x.port = port) ∧
    ((find_service U w ipproto port out).1 = true →
      ∃ pre m post, w.ht.services = pre ++ m :: post ∧
        (∀ x ∈ pre, ¬ (x.ipproto = ipproto ∧ x.port = port)) ∧
        m.ipproto = ipproto ∧ m.port = port ∧
        (find_service U w ipproto port out).2.1 = m) ∧
    ((find_service U w ipproto port out).1 = false →
      (find_service U w ipproto port out).2.1 = out) ∧
    (find_service U w ipproto port out).2.2.ht = w.ht := by
  refine ⟨?_, ?_, ?_, find_service_world U w ipproto port out⟩
  · have := find_service_false_iff U w ipproto port out
    rw [← Bool.not_eq_true] at this
    rw [← not_iff_not, this]
    push_neg
    rfl
  · intro ht
    have hf := (find_service_true_iff U w ipproto port out).1 ht
    obtain ⟨pre, m, post, hl, hpre, hmi, hmp, hfind, _⟩ :=
      std_find_split w.ht.services (HostApplicationEntry.ctor ipproto port U) hf
    have hent := find_service_entry U w ipproto port out hf
    rw [hfind] at hent
    exact ⟨pre, m, post, hl, hpre, hmi, hmp, (Option.some.inj hent).symm⟩
  · intro hfalse
    have hge : ¬ std_find w.ht.services (HostApplicationEntry.ctor ipproto port U) <
        w.ht.services.length := by
      intro hlt
      have := (find_service_true_iff U w ipproto port out).2 (Nat.ne_of_lt hlt)
      rw [hfalse] at this
      exact absurd this (by decide)
    simp only [find_service, hge, dite_false]

/-- C15: on every call and whatever the outcome, `add_service` and
`add_or_replace_service` each increase the calling thread's `service_adds` by exactly
one, `find_service` increases `service_finds` by exactly one and `remove_service`
increases `service_removes` by exactly one, modulo 2^64, each leaving the other two
counters unchanged; the application mapping operations and the getters and setters
change no counter. -/
theorem C15_counters (U : Nat) (APP_ID_NONE : Int) (w : World)
    (e out : HostApplicationEntry) (ipproto port proto policy : Nat) (appid : Int)
    (new_ip_addr : SfIp) :
    (add_service w e).2.host_tracker_stats =
      { service_adds := (w.host_tracker_stats.service_adds + 1) % 2 ^ 64,
        service_finds := w.host_tracker_stats.service_finds,
        service_removes := w.host_tracker_stats.service_removes } ∧
    (add_or_replace_service w e).host_tracker_stats =
      { service_adds := (w.host_tracker_stats.service_adds + 1) % 2 ^ 64,
        service_finds := w.host_tracker_stats.service_finds,
        service_removes := w.host_tracker_stats.service_removes } ∧
    (find_service U w ipproto port out).2.2.host_tracker_stats =
      { service_adds := w.host_tracker_stats.service_adds,
        service_finds := (w.host_tracker_stats.service_finds + 1) % 2 ^ 64,
        service_removes := w.host_tracker_stats.service_removes } ∧
    (remove_service U w ipproto port).2.host_tracker_stats =
      { service_adds := w.host_tracker_stats.service_adds,
        service_finds := w.host_tracker_stats.service_finds,
        service_removes := (w.host_tracker_stats.service_removes + 1) % 2 ^ 64 } ∧
    (add_app_mapping w port proto appid).host_tracker_stats = w.host_tracker_stats ∧
    (find_app_mapping APP_ID_NONE w port proto).2.host_tracker_stats =
      w.host_tracker_stats ∧
    (find_else_add_app_mapping w port proto appid).2.host_tracker_stats =
      w.host_tracker_stats ∧
    (get_ip_addr w).2.host_tracker_stats = w.host_tracker_stats ∧
    (set_ip_addr w new_ip_addr).host_tracker_stats = w.host_tracker_stats ∧
    (get_stream_policy w).2.host_tracker_stats = w.host_tracker_stats ∧
    (set_stream_policy w policy).host_tracker_stats = w.host_tracker_stats ∧
    (get_frag_policy w).2.host_tracker_stats = w.host_tracker_stats ∧
    (set_frag_policy w policy).host_tracker_stats = w.host_tracker_stats := by
  refine ⟨?_, rfl, ?_, ?_, rfl, rfl, ?_, rfl, rfl, rfl, rfl, rfl, rfl⟩
  · simp only [add_service, peg_incr, PEG_MOD]
    split <;> rfl
  · simp only [find_service, peg_incr, PEG_MOD]
    split <;> rfl
  · simp only [remove_service, peg_incr, PEG_MOD]
    split <;> rfl
  · simp only [find_else_add_app_mapping]
    split <;> rfl

/-- C17: a newly constructed record has stream policy 0 and frag policy 0;
`set_stream_policy(c)` makes `get_stream_policy` return `c` and leaves the frag policy,
address, application mappings, services and clients unchanged, `set_frag_policy(c)`
does the same for the frag policy, and the getters change nothing. -/
theorem C17_policies (sizeof_ip : Nat) (new_ip_addr : SfIp) (w : World) (c : Nat) :
    ((get_stream_policy ⟨HostTracker.ctor sizeof_ip, w.host_tracker_stats⟩).1 = 0 ∧
      (get_frag_policy ⟨HostTracker.ctor sizeof_ip, w.host_tracker_stats⟩).1 = 0 ∧
      (get_stream_policy ⟨HostTracker.ctor_ip new_ip_addr, w.host_tracker_stats⟩).1 = 0 ∧
      (get_frag_policy ⟨HostTracker.ctor_ip new_ip_addr, w.host_tracker_stats⟩).1 = 0) ∧
    ((get_stream_policy (set_stream_policy w c)).1 = c ∧
      (set_stream_policy w c).ht.frag_policy = w.ht.frag_policy ∧
      (set_stream_policy w c).ht.ip_addr = w.ht.ip_addr ∧
      (set_stream_policy w c).ht.app_mappings = w.ht.app_mappings ∧
      (set_stream_policy w c).ht.services = w.ht.services ∧
      (set_stream_policy w c).ht.clients = w.ht.clients) ∧
    ((get_frag_policy (set_frag_policy w c)).1 = c ∧
      (set_frag_policy w c).ht.stream_policy = w.ht.stream_policy ∧
      (set_frag_policy w c).ht.ip_addr = w.ht.ip_addr ∧
      (set_frag_policy w c).ht.app_mappings = w.ht.app_mappings ∧
      (set_frag_policy w c).ht.services = w.ht.services ∧
      (set_frag_policy w c).ht.clients = w.ht.clients) ∧
    ((get_stream_policy w).1 = w.ht.stream_policy ∧ (get_stream_policy w).2 = w ∧
      (get_frag_policy w).1 = w.ht.frag_policy ∧ (get_frag_policy w).2 = w) :=
  ⟨⟨rfl, rfl, rfl, rfl⟩, ⟨rfl, rfl, rfl, rfl, rfl, rfl⟩, ⟨rfl, rfl, rfl, rfl, rfl, rfl⟩,
   ⟨rfl, rfl, rfl, rfl⟩⟩

/-- C18: `find_else_add_app_mapping` preserves key uniqueness of the application
mappings; a record built from a new record without `add_app_mapping` never holds two
mappings with one key; and some record reachable with `add_app_mapping` holds two
mappings with the same key. -/
theorem C18_find_else_add_keeps_unique :
    (∀ (w : World) (port proto : Nat) (appid : Int),
      (∀ p q, map_key_count w.ht.app_mappings p q ≤ 1) →
      ∀ p q,
        map_key_count (find_else_add_app_mapping w port proto appid).2.ht.app_mappings p q
          ≤ 1) ∧
    (∀ ht : HostTracker, ReachableNoAppend ht →
      ∀ p q, map_key_count ht.app_mappings p q ≤ 1) ∧
    (Reachable dup_mapping_record ∧ map_key_count dup_mapping_record.app_mappings 80 6 = 2) :=
  ⟨map_keys_unique_find_else_add, map_keys_unique_no_append, dup_mapping_reachable,
   by decide⟩

/-- C19: calling `add_or_replace_service(e)` twice in a row leaves the same services
list as calling it once. -/
theorem C19_add_or_replace_idempotent (w : World) (e : HostApplicationEntry) :
    (add_or_replace_service (add_or_replace_service w e) e).ht.services =
      (add_or_replace_service w e).ht.services := by
  have hop : e.op_eq e = true := (op_eq_iff e e).2 ⟨rfl, rfl⟩
  rw [add_or_replace_services (add_or_replace_service w e) e, add_or_replace_services w e]
  simp [std_find, hop, list_erase]

/-- C20: if `add_service(e)` returns true, then an immediately following
`remove_service(e.ipproto, e.port)` returns true and restores the services list to the
list before the `add_service` call. -/
theorem C20_add_then_remove (U : Nat) (w : World) (e : HostApplicationEntry)
    (hadd : (add_service w e).1 = true) :
    (remove_service U (add_service w e).2 e.ipproto e.port).1 = true ∧
    (remove_service U (add_service w e).2 e.ipproto e.port).2.ht.services =
      w.ht.services := by
  have hs : (add_service w e).2.ht.services = e :: w.ht.services := by
    rw [add_service_services, if_pos ((add_service_true_iff w e).1 hadd)]
  have hop : e.op_eq (HostApplicationEntry.ctor e.ipproto e.port U) = true := by
    simp [HostApplicationEntry.op_eq, HostApplicationEntry.ctor]
  refine ⟨(remove_service_true_iff U _ e.ipproto e.port).2
    ⟨e, by rw [hs]; exact List.mem_cons_self _ _, rfl, rfl⟩, ?_⟩
  simp only [remove_service, hs]
  simp [std_find, hop, list_erase]

/-- C20 on the record with services `(17, 53)` and `(6, 80)`, adding and removing
`(6, 443, 30)`. -/
theorem C20_add_then_remove_witness :
    (add_service ⟨two_services_record, ⟨0, 0, 0⟩⟩ (HostApplicationEntry.ctor 6 443 30)).1 =
      true ∧
    (remove_service 0
      (add_service ⟨two_services_record, ⟨0, 0, 0⟩⟩ (HostApplicationEntry.ctor 6 443 30)).2
      6 443).1 = true ∧
    (remove_service 0
      (add_service ⟨two_services_record, ⟨0, 0, 0⟩⟩ (HostApplicationEntry.ctor 6 443 30)).2
      6 443).2.ht.services = two_services_record.services :=
  ⟨by decide,
   C20_add_then_remove 0 ⟨two_services_record, ⟨0, 0, 0⟩⟩
    (HostApplicationEntry.ctor 6 443 30) (by decide)⟩

end HostTrackerModel
